import Mathlib

/-!
# The App resource of `swagger_example/app.go`

A shallow embedding of the five request handlers of `AppResource`
(`findApp`, `createApp`, `updateApp`, `removeApp`) over an in-memory
`map[string]App`, together with the properties of the store they maintain.
-/

namespace SwaggerExample

/-- The resource `App` of `app.go` (lines 11-15). -/
structure App where
  Id : String
  Label : String
  Description : String
  deriving DecidableEq, Repr

/-- The zero value of `App`: what a map read of an absent key and `new(App)` give. -/
instance : Inhabited App := ⟨⟨"", "", ""⟩⟩

/-- The payload `AppRequest` (lines 17-20); a nil pointer is `none`. -/
structure AppRequest where
  Label : Option String
  Description : Option String
  deriving DecidableEq, Repr

/-- The method `AppRequest.Validate` (lines 22-31): `none` is the nil error. -/
def AppRequest.Validate (a : AppRequest) : Option String :=
  if a.Label = none then
    some "Label must not be nil."
  else if a.Description = none then
    some "Description must not be nil."
  else
    none

/-- The field `apps map[string]App` of `AppResource`: a finite map with unique keys. -/
abbrev Store := AList (fun _ : String => App)

/-- The Go builtin `len` on a map: the number of entries. -/
def Store.len (a : Store) : Nat := a.entries.length

/-- A map read `a.apps[id]`: the stored value, or the zero value when the key is absent. -/
def Store.index (a : Store) (id : String) : App := (a.lookup id).getD default

/-- The Go builtin `len` on a string: its length in bytes. -/
def len (s : String) : Nat := s.utf8ByteSize

/-- The function `strconv.Itoa` on a non-negative argument: the decimal numeral. -/
def Itoa (n : Nat) : String := Nat.repr n

/-- A well-formed request document (JSON or XML object): each member is a string
or is missing. The member `id` is accepted on the wire because `createApp`
decodes into `App`. -/
structure Document where
  id : Option String
  label : Option String
  description : Option String
  deriving DecidableEq, Repr

/-- The body of a request as the decoder meets it: malformed (with the decoder's
message), the JSON literal `null`, or a document. -/
inductive Body where
  | error (err : String)
  | null
  | ok (d : Document)
  deriving DecidableEq, Repr

/-- The part of `restful.Request` the handlers read: the HTTP method, the path
parameter `app-id`, and the body. -/
structure Request where
  Method : String
  appId : String
  body : Body

/-- The call `request.ReadEntity(app)` with `app := new(App)`: the target is the
struct `app` points to. Members present in the document are stored, missing
ones keep the zero value, and `null` leaves the struct as it is. -/
def ReadEntityApp (request : Request) : Except String App :=
  match request.body with
  | .error e => .error e
  | .null => .ok default
  | .ok d => .ok ⟨d.id.getD "", d.label.getD "", d.description.getD ""⟩

/-- The call `request.ReadEntity(&appReq)` with `appReq := new(AppRequest)`: the
target is the pointer `appReq` itself. On a document its members present become
non-nil pointers and missing ones stay nil; on `null` the decoder reports no
error and sets `appReq` to nil, here `none`. -/
def ReadEntityAppRequest (request : Request) : Except String (Option AppRequest) :=
  match request.body with
  | .error e => .error e
  | .null => .ok none
  | .ok d => .ok (some ⟨d.label, d.description⟩)

/-- What a handler has written to the client. -/
inductive Content where
  | empty
  | text (msg : String)
  | entity (app : App)
  deriving DecidableEq, Repr

/-- The part of `restful.Response` the handlers write: the status code (0 while
none has been written), the headers added, and the body. -/
structure Response where
  statusCode : Nat
  headers : List (String × String)
  content : Content
  deriving DecidableEq, Repr

/-- The response a handler is handed: nothing written yet. -/
def Response.new : Response := ⟨0, [], .empty⟩

def Response.AddHeader (r : Response) (k v : String) : Response :=
  { r with headers := r.headers ++ [(k, v)] }

def Response.WriteErrorString (r : Response) (status : Nat) (msg : String) : Response :=
  { r with statusCode := status, content := .text msg }

def Response.WriteHeader (r : Response) (status : Nat) : Response :=
  { r with statusCode := status }

/-- The call `response.WriteEntity(v)`: the body is written under the status
already set, or under 200 when none was. -/
def Response.WriteEntity (r : Response) (app : App) : Response :=
  { r with statusCode := if r.statusCode = 0 then 200 else r.statusCode, content := .entity app }

/-- The status the client sees: `net/http` sends 200 when the handler wrote none. -/
def Response.status (r : Response) : Nat :=
  if r.statusCode = 0 then 200 else r.statusCode

def StatusOK : Nat := 200
def StatusCreated : Nat := 201
def StatusBadRequest : Nat := 400
def StatusNotFound : Nat := 404
def StatusInternalServerError : Nat := 500

/-- The handler `findApp` (lines 84-93). -/
def findApp (a : Store) (request : Request) : Store × Response :=
  let response := Response.new
  let id := request.appId
  let app := a.index id
  if len app.Id = 0 then
    let response := response.AddHeader "Content-Type" "text/plain"
    (a, response.WriteErrorString StatusNotFound "App could not be found.")
  else
    (a, response.WriteEntity app)

/-- The handler `createApp` (lines 96-108). -/
def createApp (a : Store) (request : Request) : Store × Response :=
  let response := Response.new
  match ReadEntityApp request with
  | .error err =>
    let response := response.AddHeader "Content-Type" "text/plain"
    (a, response.WriteErrorString StatusInternalServerError err)
  | .ok app =>
    let app := { app with Id := Itoa (a.len + 1) }
    let a := a.insert app.Id app
    let response := response.WriteHeader StatusCreated
    (a, response.WriteEntity app)

/-- How a handler ends: it returns, leaving the response it wrote, or it panics
with a run-time error before returning. -/
inductive Outcome where
  | returned (response : Response)
  | panicked (err : String)
  deriving DecidableEq, Repr

/-- The run-time error of Go on reading through a nil pointer. -/
def nilDereference : String :=
  "runtime error: invalid memory address or nil pointer dereference"

/-- Lines 135-144 of `updateApp`: the path id and the fields present in the
payload are assigned to the copy `app`, which is stored back under `id` and
written out. Reading `appReq.Label` (line 136) through a nil `appReq` panics,
before the map is written. -/
def updateApp.assign (a : Store) (id : String) (app : App) (appReq : Option AppRequest) :
    Store × Outcome :=
  let response := Response.new
  let app := { app with Id := id }
  match appReq with
  | none => (a, .panicked nilDereference)
  | some appReq =>
    let app := match appReq.Label with
      | some l => { app with Label := l }
      | none => app
    let app := match appReq.Description with
      | some d => { app with Description := d }
      | none => app
    let a := a.insert id app
    (a, .returned (response.WriteEntity app))

/-- The handler `updateApp` (lines 111-145). `Validate` has a value receiver, so
the call `appReq.Validate()` (line 127) reads `*appReq` and panics on nil. -/
def updateApp (a : Store) (request : Request) : Store × Outcome :=
  let response := Response.new
  let id := request.appId
  let app := a.index id
  if len app.Id = 0 then
    let response := response.AddHeader "Content-Type" "text/plain"
    (a, .returned (response.WriteErrorString StatusNotFound "App could not be found."))
  else
    match ReadEntityAppRequest request with
    | .error err =>
      let response := response.AddHeader "Content-Type" "text/plain"
      (a, .returned (response.WriteErrorString StatusInternalServerError err))
    | .ok appReq =>
      if request.Method = "PUT" then
        match appReq with
        | none => (a, .panicked nilDereference)
        | some req =>
          match req.Validate with
          | some err =>
            let response := response.AddHeader "Content-Type" "text/plain"
            (a, .returned (response.WriteErrorString StatusBadRequest err))
          | none => updateApp.assign a id app appReq
      else
        updateApp.assign a id app appReq

/-- The handler `removeApp` (lines 149-152): nothing is written to the response. -/
def removeApp (a : Store) (request : Request) : Store × Response :=
  let response := Response.new
  let id := request.appId
  (a.erase id, response)

/-- One request as the routes of `Register` (lines 38-80) dispatch it: GET, POST,
PUT (`strict`) or PATCH, and DELETE. -/
inductive Op where
  | Get (id : String)
  | Create (body : Body)
  | Update (strict : Bool) (id : String) (body : Body)
  | Delete (id : String)

/-- The request an operation arrives as. GET and DELETE carry no body. -/
def Op.request : Op → Request
  | .Get id => ⟨"GET", id, .error "EOF"⟩
  | .Create body => ⟨"POST", "", body⟩
  | .Update strict id body => ⟨if strict then "PUT" else "PATCH", id, body⟩
  | .Delete id => ⟨"DELETE", id, .error "EOF"⟩

/-- A handler without a panicking step: it returns with the response it wrote. -/
def returns (r : Store × Response) : Store × Outcome := (r.1, .returned r.2)

/-- The route table of `Register`: each operation goes to its handler. -/
def Op.serve (a : Store) (op : Op) : Store × Outcome :=
  match op with
  | .Get _ => returns (findApp a op.request)
  | .Create _ => returns (createApp a op.request)
  | .Update _ _ _ => updateApp a op.request
  | .Delete _ => returns (removeApp a op.request)

/-- The store after serving a sequence of operations, one after the other. -/
def run (a : Store) : List Op → Store
  | [] => a
  | op :: ops => run (op.serve a).1 ops

/-- The operations of a sequence, each with the way its handler ended. -/
def responses (a : Store) : List Op → List (Op × Outcome)
  | [] => []
  | op :: ops => (op, (op.serve a).2) :: responses (op.serve a).1 ops

/-- The Id a Create handed back, if the exchange is a Create answered with an App. -/
def createdId : Op × Outcome → Option String
  | (.Create _, .returned ⟨_, _, .entity app⟩) => some app.Id
  | _ => none

/-- The Ids returned by the Creates of a sequence served from store `a`. -/
def createdIds (a : Store) (ops : List Op) : List String :=
  (responses a ops).filterMap createdId

/-- The data-model invariant: every stored App has a non-empty Id equal to its key. -/
def Store.Valid (a : Store) : Prop :=
  ∀ k app, a.lookup k = some app → app.Id = k ∧ app.Id ≠ ""

/-- The App `createApp` builds from a document when the store holds `n` entries. -/
def createdApp (n : Nat) (d : Document) : App :=
  ⟨Itoa (n + 1), d.label.getD "", d.description.getD ""⟩

/-- The App `updateApp` writes back: the path id, and each field of the payload
where present, of the stored App where not. -/
def updatedApp (id : String) (old : App) (d : Document) : App :=
  ⟨id, d.label.getD old.Label, d.description.getD old.Description⟩

/-! ## Auxiliary facts -/

theorem len_eq_zero_iff (s : String) : len s = 0 ↔ s = "" := by
  unfold len
  cases s with
  | mk l =>
    cases l with
    | nil => simp [String.utf8ByteSize, String.utf8ByteSize.go]
    | cons c cs =>
      have hc := Char.utf8Size_pos c
      simp [String.utf8ByteSize, String.utf8ByteSize.go]
      constructor
      · omega
      · intro h; exact absurd (congrArg String.data h) (by simp)

theorem toDigitsCore_length_ge (b : Nat) :
    ∀ (f n : Nat) (ds : List Char), ds.length ≤ (Nat.toDigitsCore b f n ds).length := by
  intro f
  induction f with
  | zero => intro n ds; simp [Nat.toDigitsCore]
  | succ f ih =>
    intro n ds
    simp only [Nat.toDigitsCore]
    split
    · simp
    · exact le_trans (by simp) (ih _ _)

theorem Itoa_ne_empty (n : Nat) : Itoa n ≠ "" := by
  intro h
  have h1 : (Nat.toDigits 10 n).length = 0 := by
    have := congrArg String.length h
    simpa [Itoa, Nat.repr, List.asString] using this
  unfold Nat.toDigits at h1
  simp only [Nat.toDigitsCore] at h1
  split at h1
  · simp at h1
  · have := toDigitsCore_length_ge 10 n (n / 10) [Nat.digitChar (n % 10)]
    simp at this
    omega

theorem len_Itoa_ne_zero (n : Nat) : len (Itoa n) ≠ 0 := by
  intro h
  exact Itoa_ne_empty n ((len_eq_zero_iff _).1 h)

theorem index_of_lookup {a : Store} {id : String} {app : App} (h : a.lookup id = some app) :
    a.index id = app := by
  simp [Store.index, h]

theorem index_of_lookup_none {a : Store} {id : String} (h : a.lookup id = none) :
    a.index id = default := by
  simp [Store.index, h]

theorem len_default_Id : len (default : App).Id = 0 := by
  rw [len_eq_zero_iff]; rfl

/-- A map read with a non-empty Id comes from a stored entry. -/
theorem lookup_of_index_len {a : Store} {id : String} (h : len (a.index id).Id ≠ 0) :
    a.lookup id = some (a.index id) := by
  cases hl : a.lookup id with
  | none => rw [index_of_lookup_none hl] at h; exact absurd len_default_Id h
  | some app => rw [index_of_lookup hl]

theorem findApp_fst (a : Store) (request : Request) : (findApp a request).1 = a := by
  unfold findApp
  simp only []
  split <;> rfl

theorem findApp_found {a : Store} {request : Request} (h : len (a.index request.appId).Id ≠ 0) :
    findApp a request = (a, Response.new.WriteEntity (a.index request.appId)) := by
  unfold findApp
  simp [h]

theorem findApp_notFound {a : Store} {request : Request} (h : len (a.index request.appId).Id = 0) :
    findApp a request = (a, (Response.new.AddHeader "Content-Type" "text/plain").WriteErrorString
      StatusNotFound "App could not be found.") := by
  unfold findApp
  simp [h]

theorem createApp_ok (a : Store) (m i : String) (d : Document) :
    createApp a ⟨m, i, .ok d⟩ =
      (a.insert (Itoa (a.len + 1)) (createdApp a.len d),
       (Response.new.WriteHeader StatusCreated).WriteEntity (createdApp a.len d)) := rfl

theorem createApp_error (a : Store) (m i e : String) :
    createApp a ⟨m, i, .error e⟩ =
      (a, (Response.new.AddHeader "Content-Type" "text/plain").WriteErrorString
        StatusInternalServerError e) := rfl

theorem createApp_null (a : Store) (m i : String) :
    createApp a ⟨m, i, .null⟩ =
      (a.insert (Itoa (a.len + 1)) ⟨Itoa (a.len + 1), "", ""⟩,
       (Response.new.WriteHeader StatusCreated).WriteEntity ⟨Itoa (a.len + 1), "", ""⟩) := rfl

theorem updateApp_notFound {a : Store} {request : Request}
    (h : len (a.index request.appId).Id = 0) :
    updateApp a request =
      (a, .returned ((Response.new.AddHeader "Content-Type" "text/plain").WriteErrorString
        StatusNotFound "App could not be found.")) := by
  unfold updateApp
  simp [h]

theorem updateApp_error {a : Store} {m id e : String} (h : len (a.index id).Id ≠ 0) :
    updateApp a ⟨m, id, .error e⟩ =
      (a, .returned ((Response.new.AddHeader "Content-Type" "text/plain").WriteErrorString
        StatusInternalServerError e)) := by
  unfold updateApp
  simp [h, ReadEntityAppRequest]

/-- On the body `null` the decoded pointer is nil and `updateApp` panics, under
PUT at the call of `Validate` and under any other method at `appReq.Label`. -/
theorem updateApp_null {a : Store} {m id : String} (h : len (a.index id).Id ≠ 0) :
    updateApp a ⟨m, id, .null⟩ = (a, .panicked nilDereference) := by
  unfold updateApp
  simp only [h, ReadEntityAppRequest, if_false]
  split <;> rfl

theorem updateApp_invalid {a : Store} {id e : String} {d : Document}
    (h : len (a.index id).Id ≠ 0) (hv : AppRequest.Validate ⟨d.label, d.description⟩ = some e) :
    updateApp a ⟨"PUT", id, .ok d⟩ =
      (a, .returned ((Response.new.AddHeader "Content-Type" "text/plain").WriteErrorString
        StatusBadRequest e)) := by
  unfold updateApp
  simp [h, ReadEntityAppRequest, hv]

theorem assign_document (a : Store) (id : String) (app : App) (d : Document) :
    updateApp.assign a id app (some ⟨d.label, d.description⟩) =
      (a.insert id (updatedApp id app d),
       .returned (Response.new.WriteEntity (updatedApp id app d))) := by
  rcases d with ⟨i, l, ds⟩
  cases l <;> cases ds <;> rfl

theorem updateApp_write {a : Store} {m id : String} {d : Document}
    (h : len (a.index id).Id ≠ 0)
    (hv : (if m = "PUT" then AppRequest.Validate ⟨d.label, d.description⟩ else none) = none) :
    updateApp a ⟨m, id, .ok d⟩ =
      (a.insert id (updatedApp id (a.index id) d),
       .returned (Response.new.WriteEntity (updatedApp id (a.index id) d))) := by
  unfold updateApp
  simp only [h, ReadEntityAppRequest, if_false]
  by_cases hm : m = "PUT"
  · rw [if_pos hm] at hv
    simp only [hm, if_true, hv]
    exact assign_document a id _ d
  · simp only [hm, if_false]
    exact assign_document a id _ d

/-- Every outcome of `updateApp`: the store is untouched, or the looked-up entry
had a non-empty Id and an App carrying the path id is written under it and
returned. -/
theorem updateApp_cases (a : Store) (request : Request) :
    (updateApp a request).1 = a ∨
      (len (a.index request.appId).Id ≠ 0 ∧ ∃ app : App, app.Id = request.appId ∧
        (updateApp a request).1 = a.insert request.appId app ∧
        (updateApp a request).2 = .returned (Response.new.WriteEntity app)) := by
  rcases request with ⟨m, id, body⟩
  by_cases h : len (a.index id).Id = 0
  · left; rw [updateApp_notFound h]
  · cases body with
    | error e => left; rw [updateApp_error h]
    | null => left; rw [updateApp_null h]
    | ok d =>
      cases hv : (if m = "PUT" then AppRequest.Validate ⟨d.label, d.description⟩ else none) with
      | none =>
        right
        refine ⟨h, updatedApp id (a.index id) d, rfl, ?_, ?_⟩ <;> rw [updateApp_write h hv]
      | some e =>
        left
        by_cases hm : m = "PUT"
        · subst hm
          simp only [if_true] at hv
          rw [updateApp_invalid h hv]
        · simp [hm] at hv

theorem Valid_empty : Store.Valid (∅ : Store) := by
  intro k app h
  simp [AList.lookup_empty] at h

theorem Valid_insert {a : Store} {k : String} {app : App} (ha : a.Valid)
    (hk : app.Id = k) (hne : k ≠ "") : Store.Valid (a.insert k app) := by
  intro k' app' h
  by_cases hkk : k' = k
  · subst hkk
    rw [AList.lookup_insert] at h
    cases h
    exact ⟨hk, hk ▸ hne⟩
  · rw [AList.lookup_insert_ne hkk] at h
    exact ha k' app' h

theorem Valid_erase {a : Store} (k : String) (ha : a.Valid) : Store.Valid (a.erase k) := by
  intro k' app' h
  by_cases hkk : k' = k
  · subst hkk
    rw [AList.lookup_erase] at h
    cases h
  · rw [AList.lookup_erase_ne hkk] at h
    exact ha k' app' h

theorem returns_fst (r : Store × Response) : (returns r).1 = r.1 := rfl

theorem returns_snd (r : Store × Response) : (returns r).2 = .returned r.2 := rfl

/-- Each handler preserves the invariant of the store. -/
theorem serve_Valid {a : Store} (op : Op) (ha : a.Valid) : Store.Valid (op.serve a).1 := by
  cases op with
  | Get id => simpa [Op.serve, returns_fst, findApp_fst] using ha
  | Create body =>
    cases body with
    | error e => simpa [Op.serve, Op.request, returns_fst, createApp_error] using ha
    | null =>
      simp only [Op.serve, Op.request, returns_fst, createApp_null]
      exact Valid_insert ha rfl (Itoa_ne_empty _)
    | ok d =>
      simp only [Op.serve, Op.request, returns_fst, createApp_ok]
      exact Valid_insert ha rfl (Itoa_ne_empty _)
  | Update strict id body =>
    simp only [Op.serve]
    rcases updateApp_cases a (Op.request (.Update strict id body)) with h | ⟨hlen, app, hid, hst, _⟩
    · rw [h]; exact ha
    · rw [hst]
      have hl := lookup_of_index_len hlen
      have hv := ha _ _ hl
      exact Valid_insert ha hid (hv.1 ▸ hv.2)
  | Delete id => exact Valid_erase _ ha

theorem run_Valid : ∀ (ops : List Op) (a : Store), a.Valid → Store.Valid (run a ops)
  | [], _, ha => ha
  | op :: ops, _, ha => run_Valid ops _ (serve_Valid op ha)

/-- A key present after a request was present before it, or is the Id that a
Create has just returned. -/
theorem serve_mem {a : Store} (op : Op) {id : String} (h : id ∈ (op.serve a).1) :
    id ∈ a ∨ createdId (op, (op.serve a).2) = some id := by
  cases op with
  | Get i => left; simpa [Op.serve, returns_fst, findApp_fst] using h
  | Create body =>
    cases body with
    | error e => left; simpa [Op.serve, Op.request, returns_fst, createApp_error] using h
    | null =>
      simp only [Op.serve, Op.request, returns_fst, returns_snd, createApp_null,
        AList.mem_insert] at h ⊢
      rcases h with h | h
      · right; rw [h]; rfl
      · left; exact h
    | ok d =>
      simp only [Op.serve, Op.request, returns_fst, returns_snd, createApp_ok,
        AList.mem_insert] at h ⊢
      rcases h with h | h
      · right; rw [h]; rfl
      · left; exact h
  | Update strict i body =>
    left
    simp only [Op.serve] at h
    rcases updateApp_cases a (Op.request (.Update strict i body)) with h1 | ⟨hlen, app, _, hst, _⟩
    · rwa [h1] at h
    · rw [hst, AList.mem_insert] at h
      rcases h with h | h
      · rw [h, ← AList.lookup_isSome, lookup_of_index_len hlen]; rfl
      · exact h
  | Delete i =>
    left
    simp only [Op.serve, returns_fst, removeApp, AList.mem_erase] at h
    exact h.2

theorem run_mem : ∀ (ops : List Op) (a : Store) (id : String),
    id ∈ run a ops → id ∈ a ∨ id ∈ createdIds a ops
  | [], _, _, h => Or.inl h
  | op :: ops, a, id, h => by
    rcases run_mem ops _ id h with h1 | h1
    · rcases serve_mem op h1 with h2 | h2
      · exact Or.inl h2
      · right
        simp only [createdIds, responses, List.mem_filterMap, List.mem_cons]
        exact ⟨_, Or.inl rfl, h2⟩
    · right
      simp only [createdIds, responses, List.mem_filterMap, List.mem_cons] at h1 ⊢
      obtain ⟨x, hx, hx2⟩ := h1
      exact ⟨x, Or.inr hx, hx2⟩

theorem status_WriteEntity_new (app : App) : (Response.new.WriteEntity app).status = 200 := rfl

/-- On a document, a PATCH of an id stored with a non-empty Id returns 200 with
an App that it also stores under id: each field is the document's where present
and the stored one where missing. -/
theorem updateApp_patch_document (a : Store) (id : String) (old : App) (d : Document)
    (hfound : a.lookup id = some old) (hid : old.Id ≠ "") :
    updateApp a ⟨"PATCH", id, .ok d⟩ =
      (a.insert id ⟨id, d.label.getD old.Label, d.description.getD old.Description⟩,
       .returned ⟨200, [],
         .entity ⟨id, d.label.getD old.Label, d.description.getD old.Description⟩⟩) := by
  have hidx : a.index id = old := index_of_lookup hfound
  have hlen : len (a.index id).Id ≠ 0 := by
    rw [hidx]; intro h; exact hid ((len_eq_zero_iff _).1 h)
  have hv : (if "PATCH" = "PUT" then AppRequest.Validate ⟨d.label, d.description⟩ else none)
      = none := by
    rw [if_neg (by decide)]
  rw [updateApp_write hlen hv, hidx]
  rfl

/-- On a document, a PUT of an id stored with a non-empty Id returns 400 with the
message of `Validate` and leaves the store when a field is missing, and
otherwise returns 200 with, and stores under id, the App carrying both fields
of the document. -/
theorem updateApp_put_document (a : Store) (id : String) (old : App) (d : Document)
    (hfound : a.lookup id = some old) (hid : old.Id ≠ "") :
    ((d.label = none ∨ d.description = none) →
      updateApp a ⟨"PUT", id, .ok d⟩ =
        (a, .returned ⟨400, [("Content-Type", "text/plain")],
          .text (if d.label = none then "Label must not be nil."
            else "Description must not be nil.")⟩)) ∧
    (∀ l ds, d.label = some l → d.description = some ds →
      updateApp a ⟨"PUT", id, .ok d⟩ =
        (a.insert id ⟨id, l, ds⟩, .returned ⟨200, [], .entity ⟨id, l, ds⟩⟩)) := by
  have hidx : a.index id = old := index_of_lookup hfound
  have hlen : len (a.index id).Id ≠ 0 := by
    rw [hidx]; intro h; exact hid ((len_eq_zero_iff _).1 h)
  rcases d with ⟨eid, lab, des⟩
  constructor
  · intro h
    have hv : AppRequest.Validate ⟨lab, des⟩ = some (if lab = none then "Label must not be nil."
          else "Description must not be nil.") := by
      cases lab with
      | none => rfl
      | some l =>
        cases des with
        | none => rfl
        | some ds => simp at h
    rw [updateApp_invalid hlen hv]
    rfl
  · intro l ds hl hds
    simp only at hl hds
    subst hl hds
    have hv : (if "PUT" = "PUT" then AppRequest.Validate ⟨some l, some ds⟩ else none) = none := rfl
    rw [updateApp_write (d := ⟨eid, some l, some ds⟩) hlen hv, hidx]
    rfl

/-! ## The claims -/

/-- C1, evaluated on the code: on the empty store, a Create whose payload has
Description "d" and no Label is answered 201 Created, not 400, with an App whose
Label is the empty string, and that App is inserted under Id "1". -/
theorem createApp_missing_label_created :
    (createApp ∅ ⟨"POST", "", .ok ⟨none, none, some "d"⟩⟩).2.status = 201 ∧
    (createApp ∅ ⟨"POST", "", .ok ⟨none, none, some "d"⟩⟩).2.content = .entity ⟨"1", "", "d"⟩ ∧
    (createApp ∅ ⟨"POST", "", .ok ⟨none, none, some "d"⟩⟩).1.lookup "1" = some ⟨"1", "", "d"⟩ := by
  refine ⟨by decide, by decide, by decide⟩

/-- C2: for every store and every Create payload with Label `l` and Description
`d` both present, `createApp` answers 201 Created with the App whose Id is the
decimal numeral of (number of stored Apps + 1) and whose Label and Description
are `l` and `d`, and the store afterwards is the store before with that App
inserted under that Id. -/
theorem createApp_created (a : Store) (m i : String) (eid : Option String) (l d : String) :
    (createApp a ⟨m, i, .ok ⟨eid, some l, some d⟩⟩).2.status = StatusCreated ∧
    (createApp a ⟨m, i, .ok ⟨eid, some l, some d⟩⟩).2.content =
      .entity ⟨Itoa (a.len + 1), l, d⟩ ∧
    (createApp a ⟨m, i, .ok ⟨eid, some l, some d⟩⟩).1 =
      a.insert (Itoa (a.len + 1)) ⟨Itoa (a.len + 1), l, d⟩ :=
  ⟨rfl, rfl, rfl⟩

/-- C3: round trip. For every store and every Create payload with both fields
present, `createApp` returns an App `A` (with the payload's Label and
Description), and `findApp` on `A.Id` in the resulting store answers 200 OK with
exactly `A`. -/
theorem createApp_then_findApp (a : Store) (m i m' : String) (b : Body)
    (eid : Option String) (l d : String) :
    ∃ A : App, A.Label = l ∧ A.Description = d ∧
      (createApp a ⟨m, i, .ok ⟨eid, some l, some d⟩⟩).2.status = StatusCreated ∧
      (createApp a ⟨m, i, .ok ⟨eid, some l, some d⟩⟩).2.content = .entity A ∧
      (findApp (createApp a ⟨m, i, .ok ⟨eid, some l, some d⟩⟩).1 ⟨m', A.Id, b⟩).2.status
        = StatusOK ∧
      (findApp (createApp a ⟨m, i, .ok ⟨eid, some l, some d⟩⟩).1 ⟨m', A.Id, b⟩).2.content
        = .entity A := by
  refine ⟨⟨Itoa (a.len + 1), l, d⟩, rfl, rfl, rfl, rfl, ?_⟩
  have hidx : Store.index (createApp a ⟨m, i, .ok ⟨eid, some l, some d⟩⟩).1 (Itoa (a.len + 1))
      = ⟨Itoa (a.len + 1), l, d⟩ := by
    apply index_of_lookup
    rw [createApp_ok, AList.lookup_insert]
    rfl
  have hlen : len (Store.index (createApp a ⟨m, i, .ok ⟨eid, some l, some d⟩⟩).1
      (Request.appId ⟨m', Itoa (a.len + 1), b⟩)).Id ≠ 0 := by
    show len (Store.index _ (Itoa (a.len + 1))).Id ≠ 0
    rw [hidx]
    exact len_Itoa_ne_zero _
  rw [findApp_found hlen]
  show _ ∧ Content.entity (Store.index _ (Itoa (a.len + 1))) = _
  rw [hidx]
  exact ⟨rfl, rfl⟩

/-- C4, evaluated on the code: in the store holding App "1" (which `findApp`
finds), a PATCH of id "1" whose body is the JSON literal `null` does not
succeed. `ReadEntity(&appReq)` reports no error and leaves `appReq` nil, and
`updateApp` panics on reading `appReq.Label`; the stored App is left as it was. -/
theorem updateApp_patch_null_panics :
    (findApp ((∅ : Store).insert "1" ⟨"1", "x", "y"⟩) ⟨"GET", "1", .error "EOF"⟩).2.content
      = .entity ⟨"1", "x", "y"⟩ ∧
    ReadEntityAppRequest ⟨"PATCH", "1", .null⟩ = .ok none ∧
    (updateApp ((∅ : Store).insert "1" ⟨"1", "x", "y"⟩) ⟨"PATCH", "1", .null⟩).2
      = .panicked nilDereference ∧
    (updateApp ((∅ : Store).insert "1" ⟨"1", "x", "y"⟩) ⟨"PATCH", "1", .null⟩).1.lookup "1"
      = some ⟨"1", "x", "y"⟩ := by
  refine ⟨by decide, rfl, by decide, by decide⟩

/-- C5, evaluated on the code: in the store holding App "1" (which `findApp`
finds), a PUT of id "1" whose body is the JSON literal `null` is not answered
400. `ReadEntity(&appReq)` reports no error and leaves `appReq` nil, and
`updateApp` panics on calling `appReq.Validate()`; the stored App is left as it
was. -/
theorem updateApp_put_null_panics :
    (findApp ((∅ : Store).insert "1" ⟨"1", "x", "y"⟩) ⟨"GET", "1", .error "EOF"⟩).2.content
      = .entity ⟨"1", "x", "y"⟩ ∧
    ReadEntityAppRequest ⟨"PUT", "1", .null⟩ = .ok none ∧
    (updateApp ((∅ : Store).insert "1" ⟨"1", "x", "y"⟩) ⟨"PUT", "1", .null⟩).2
      = .panicked nilDereference ∧
    (updateApp ((∅ : Store).insert "1" ⟨"1", "x", "y"⟩) ⟨"PUT", "1", .null⟩).1.lookup "1"
      = some ⟨"1", "x", "y"⟩ := by
  refine ⟨by decide, rfl, by decide, by decide⟩

/-- C6: in every store reached from the empty store by a finite sequence of
Get, Create, Update (PUT or PATCH) and Delete requests, every stored App has a
non-empty Id equal to the key it is stored under. -/
theorem reachable_Valid (ops : List Op) :
    ∀ k app, (run ∅ ops).lookup k = some app → app.Id = k ∧ app.Id ≠ "" :=
  run_Valid ops ∅ Valid_empty

theorem reachable_Valid_witness :
    (run ∅ [.Create (.ok ⟨none, some "a", some "b"⟩),
            .Update false "1" (.ok ⟨none, none, some "c"⟩)]).lookup "1" = some ⟨"1", "a", "c"⟩ ∧
    (⟨"1", "a", "c"⟩ : App).Id = "1" ∧ (⟨"1", "a", "c"⟩ : App).Id ≠ "" :=
  ⟨by decide,
   reachable_Valid [.Create (.ok ⟨none, some "a", some "b"⟩),
            .Update false "1" (.ok ⟨none, none, some "c"⟩)] "1" ⟨"1", "a", "c"⟩ (by decide)⟩

/-- C7: from the empty store, after two Creates and a Delete of id "1" the App
created second is stored under "2"; the next Create returns Id "2" again (the
Creates of the sequence return "1", "2", "2"), and afterwards the store holds
that new App alone: the earlier App under "2" is overwritten. -/
theorem createApp_id_collision :
    (run ∅ [.Create (.ok ⟨none, some "a", some "b"⟩),
            .Create (.ok ⟨none, some "c", some "d"⟩),
            .Delete "1"]).lookup "2" = some ⟨"2", "c", "d"⟩ ∧
    (createApp (run ∅ [.Create (.ok ⟨none, some "a", some "b"⟩),
            .Create (.ok ⟨none, some "c", some "d"⟩),
            .Delete "1"]) ⟨"POST", "", .ok ⟨none, some "e", some "f"⟩⟩).2.content
      = .entity ⟨"2", "e", "f"⟩ ∧
    (Op.serve (run ∅ [.Create (.ok ⟨none, some "a", some "b"⟩),
            .Create (.ok ⟨none, some "c", some "d"⟩),
            .Delete "1"]) (.Create (.ok ⟨none, some "e", some "f"⟩))).2
      = .returned ⟨201, [], .entity ⟨"2", "e", "f"⟩⟩ ∧
    createdIds ∅ [.Create (.ok ⟨none, some "a", some "b"⟩),
            .Create (.ok ⟨none, some "c", some "d"⟩),
            .Delete "1",
            .Create (.ok ⟨none, some "e", some "f"⟩)] = ["1", "2", "2"] ∧
    (run ∅ [.Create (.ok ⟨none, some "a", some "b"⟩),
            .Create (.ok ⟨none, some "c", some "d"⟩),
            .Delete "1",
            .Create (.ok ⟨none, some "e", some "f"⟩)]).entries
      = [⟨"2", ⟨"2", "e", "f"⟩⟩] ∧
    (run ∅ [.Create (.ok ⟨none, some "a", some "b"⟩),
            .Create (.ok ⟨none, some "c", some "d"⟩),
            .Delete "1",
            .Create (.ok ⟨none, some "e", some "f"⟩)]).len = 1 := by
  refine ⟨by decide, by decide, by decide, by decide, by decide, by decide⟩

/-- C8: for every store and every id, present or not, `removeApp` writes no error
(the client sees 200 with an empty body), and `findApp` on that id in the
resulting store answers 404 Not Found. -/
theorem removeApp_then_findApp (a : Store) (id m m' : String) (b b' : Body) :
    (removeApp a ⟨m, id, b⟩).2.status = StatusOK ∧
    (removeApp a ⟨m, id, b⟩).2.content = .empty ∧
    (findApp (removeApp a ⟨m, id, b⟩).1 ⟨m', id, b'⟩).2.status = StatusNotFound := by
  refine ⟨rfl, rfl, ?_⟩
  have hl : len (Store.index (removeApp a ⟨m, id, b⟩).1 (Request.appId ⟨m', id, b'⟩)).Id = 0 := by
    show len (Store.index (a.erase id) id).Id = 0
    rw [index_of_lookup_none (AList.lookup_erase id a)]
    exact len_default_Id
  rw [findApp_notFound hl]
  rfl

/-- C9: (1) after any finite sequence of requests served from the empty store,
`findApp` on an id that no Create of the sequence returned answers 404;
(2) on any store, `findApp` answers 404 exactly when the id is absent or the
stored entry has an empty Id; (3) otherwise it answers 200 with the stored App. -/
theorem findApp_notFound_iff (ops : List Op) (a : Store) (request : Request) :
    (request.appId ∉ createdIds ∅ ops →
      (findApp (run ∅ ops) request).2.status = StatusNotFound) ∧
    ((findApp a request).2.status = StatusNotFound ↔
      (a.lookup request.appId = none ∨
        ∃ app, a.lookup request.appId = some app ∧ app.Id = "")) ∧
    (∀ app, a.lookup request.appId = some app → app.Id ≠ "" →
      (findApp a request).2.status = StatusOK ∧
      (findApp a request).2.content = .entity app) := by
  refine ⟨?_, ?_, ?_⟩
  · intro hid
    have hnot : request.appId ∉ run ∅ ops := by
      intro hmem
      rcases run_mem ops ∅ _ hmem with h | h
      · exact absurd h (AList.not_mem_empty _)
      · exact hid h
    have hl : len (Store.index (run ∅ ops) request.appId).Id = 0 := by
      rw [index_of_lookup_none (AList.lookup_eq_none.2 hnot)]
      exact len_default_Id
    rw [findApp_notFound hl]
    rfl
  · by_cases hl : len (a.index request.appId).Id = 0
    · rw [findApp_notFound hl]
      refine ⟨fun _ => ?_, fun _ => rfl⟩
      cases hlk : a.lookup request.appId with
      | none => exact Or.inl rfl
      | some app =>
        right
        rw [index_of_lookup hlk] at hl
        exact ⟨app, rfl, (len_eq_zero_iff _).1 hl⟩
    · rw [findApp_found hl]
      refine ⟨fun h => ?_, ?_⟩
      · have h200 : (200 : Nat) = StatusNotFound := h
        exact absurd h200 (by decide)
      rintro (h | ⟨app, h, happ⟩)
      · rw [index_of_lookup_none h] at hl
        exact absurd len_default_Id hl
      · rw [index_of_lookup h, happ] at hl
        exact absurd ((len_eq_zero_iff _).2 rfl) hl
  · intro app h happ
    have hl : len (a.index request.appId).Id ≠ 0 := by
      rw [index_of_lookup h]
      intro h0
      exact happ ((len_eq_zero_iff _).1 h0)
    rw [findApp_found hl, index_of_lookup h]
    exact ⟨rfl, rfl⟩

theorem findApp_notFound_iff_witness :
    (findApp (run ∅ [.Create (.ok ⟨none, some "a", some "b"⟩), .Delete "1",
        .Update false "3" (.ok ⟨none, some "c", none⟩)]) ⟨"GET", "3", .error "EOF"⟩).2.status
      = StatusNotFound ∧
    (findApp ((∅ : Store).insert "1" ⟨"1", "x", "y"⟩) ⟨"GET", "1", .error "EOF"⟩).2.content
      = .entity ⟨"1", "x", "y"⟩ :=
  ⟨(findApp_notFound_iff [.Create (.ok ⟨none, some "a", some "b"⟩), .Delete "1",
        .Update false "3" (.ok ⟨none, some "c", none⟩)] ∅ ⟨"GET", "3", .error "EOF"⟩).1
      (by decide),
   ((findApp_notFound_iff [] ((∅ : Store).insert "1" ⟨"1", "x", "y"⟩)
      ⟨"GET", "1", .error "EOF"⟩).2.2 ⟨"1", "x", "y"⟩ (by decide) (by decide)).2⟩

/-- C10: for every store and every request, whenever `findApp`, `createApp` or
`updateApp` answers with an error status (400 or above: not found, validation,
decode), the store it leaves is the store it was given; so is the store
`updateApp` leaves when it panics. -/
theorem error_leaves_store (a : Store) (request : Request) :
    (400 ≤ (findApp a request).2.status → (findApp a request).1 = a) ∧
    (400 ≤ (createApp a request).2.status → (createApp a request).1 = a) ∧
    (∀ response, (updateApp a request).2 = .returned response → 400 ≤ response.status →
      (updateApp a request).1 = a) ∧
    (∀ err, (updateApp a request).2 = .panicked err → (updateApp a request).1 = a) := by
  refine ⟨fun _ => findApp_fst a request, ?_, ?_, ?_⟩
  · rcases request with ⟨m, i, body⟩
    cases body with
    | error e => intro _; rw [createApp_error]
    | null =>
      rw [createApp_null]
      intro h
      have h201 : 400 ≤ (201 : Nat) := h
      exact absurd h201 (by decide)
    | ok d =>
      rw [createApp_ok]
      intro h
      have h201 : 400 ≤ (201 : Nat) := h
      exact absurd h201 (by decide)
  · intro response hr h
    rcases updateApp_cases a request with h1 | ⟨_, app, _, _, hresp⟩
    · exact h1
    · rw [hresp] at hr
      cases hr
      rw [status_WriteEntity_new] at h
      exact absurd h (by decide)
  · intro err hr
    rcases updateApp_cases a request with h1 | ⟨_, app, _, _, hresp⟩
    · exact h1
    · rw [hresp] at hr
      cases hr

theorem error_leaves_store_witness :
    (updateApp ((∅ : Store).insert "1" ⟨"1", "x", "y"⟩)
      ⟨"PUT", "1", .ok ⟨none, none, some "w"⟩⟩).2
        = .returned ⟨400, [("Content-Type", "text/plain")], .text "Label must not be nil."⟩ ∧
    (updateApp ((∅ : Store).insert "1" ⟨"1", "x", "y"⟩)
      ⟨"PUT", "1", .ok ⟨none, none, some "w"⟩⟩).1 = (∅ : Store).insert "1" ⟨"1", "x", "y"⟩ ∧
    (updateApp ((∅ : Store).insert "1" ⟨"1", "x", "y"⟩)
      ⟨"PUT", "1", .null⟩).1 = (∅ : Store).insert "1" ⟨"1", "x", "y"⟩ :=
  ⟨by decide,
   (error_leaves_store ((∅ : Store).insert "1" ⟨"1", "x", "y"⟩)
      ⟨"PUT", "1", .ok ⟨none, none, some "w"⟩⟩).2.2.1
      ⟨400, [("Content-Type", "text/plain")], .text "Label must not be nil."⟩
      (by decide) (by decide),
   (error_leaves_store ((∅ : Store).insert "1" ⟨"1", "x", "y"⟩)
      ⟨"PUT", "1", .null⟩).2.2.2 nilDereference (by decide)⟩

end SwaggerExample
